import Mathlib

/-!
Verification of the dataset-preparation layer in
`utils_cv/detection/dataset.py` (repository `simonzhaoms/ComputerVision`).

The Python module is shallowly embedded below:

* XML trees (`xml.etree.ElementTree`) become the inductive `Elem`;
  crucially, Python's truth test on an `Element` is `len(children) != 0`,
  which `elemTruthy` reproduces.
* Fallible Python code (attribute errors, `int()` failures, failed
  `assert`s, `list.index` misses) is rendered with `Option`.
* `torch.randperm` reads a global generator; it is modelled as a value of
  `TorchGen`: for each `n` a permutation of `[0..n)`.  `torch.manual_seed`
  becomes a function from seeds to such generators.
* Fractions (`train_pct`) are modelled over `ℚ`; the concrete fractions
  used in the spec (`0.5`, `0.75`) are exact binary floats, so the float /
  rational distinction does not affect the statements below.
* `list(set(labels))` iterates a Python `set` of strings, whose order
  depends on the per-process string-hash seed; the enumeration is
  therefore a parameter constrained by `SetEnum`.
* Filesystem existence checks become a `String → Bool` oracle; `realpath`
  is modelled as the identity on already-joined paths (no symlinks).
-/

namespace CV

/-- Modelled from the spec: the `AnnotationBbox` value type lives in
`utils_cv/detection/bbox.py`, which is not part of the corpus.  Per the
spec's data model it is a rectangle `left/top/right/bottom` (integer pixel
coordinates) plus `label_name`, an optional `label_idx` and the owning
image path. -/
structure AnnotationBbox where
  left : Int
  top : Int
  right : Int
  bottom : Int
  label_name : String
  label_idx : Option Nat
  im_path : String
deriving Repr, DecidableEq

/-- Modelled from the spec: `is_valid` validates
`left < right`, `top < bottom`, `left ≥ 0`, `top ≥ 0`. -/
def AnnotationBbox.is_valid (b : AnnotationBbox) : Bool :=
  b.left < b.right && b.top < b.bottom && 0 ≤ b.left && 0 ≤ b.top

/-- Modelled from the spec: `rect()` returns the (left, top, right, bottom)
coordinate tuple. -/
def AnnotationBbox.rect (b : AnnotationBbox) : Int × Int × Int × Int :=
  (b.left, b.top, b.right, b.bottom)

/-- Modelled from the spec: `surface_area() = (right-left)*(bottom-top)`. -/
def AnnotationBbox.surface_area (b : AnnotationBbox) : Int :=
  (b.right - b.left) * (b.bottom - b.top)

/-- An `xml.etree.ElementTree` element: tag, text, child elements (the
fragment of the interface used by `parse_pascal_voc_anno`). -/
inductive Elem where
  | node (tag : String) (text : Option String) (children : List Elem)

def Elem.tag : Elem → String
  | .node t _ _ => t

def Elem.text : Elem → Option String
  | .node _ x _ => x

def Elem.children : Elem → List Elem
  | .node _ _ c => c

/-- `Element.find(tag)`: first direct child carrying the tag, else `None`. -/
def Elem.find (e : Elem) (tag : String) : Option Elem :=
  e.children.find? (fun c => c.tag == tag)

/-- `Element.findall(tag)`: all direct children carrying the tag. -/
def Elem.findall (e : Elem) (tag : String) : List Elem :=
  e.children.filter (fun c => c.tag == tag)

/-- Python truthiness of `root.find(tag)`: `None` is falsy, and an
`Element` is truthy exactly when it has at least one child element
(`Element.__bool__` is `len(self) != 0`). -/
def elemTruthy : Option Elem → Bool
  | none => false
  | some e => e.children.length != 0

/-- `os.path.join(dir, s)` for a relative second component. -/
def joinPath (dir s : String) : String := dir ++ "/" ++ s

/-- `Option`-valued map over a list: any failure aborts the whole
computation (a raised Python exception aborts the enclosing call). -/
def traverseOption (f : α → Option β) : List α → Option (List β)
  | [] => some []
  | a :: l =>
    match f a, traverseOption f l with
    | some b, some bs => some (b :: bs)
    | _, _ => none

/-- The image-path selection of `parse_pascal_voc_anno`
(`dataset.py` lines 73–81): `if root.find("path"):` uses Python element
truthiness, falling back to `<filename>`; either text is joined onto the
annotation file's directory (`realpath` modelled as identity). -/
def pascalImPath (annoDir : String) (root : Elem) : Option String :=
  if elemTruthy (root.find "path") then
    ((root.find "path").bind Elem.text).map (joinPath annoDir)
  else
    ((root.find "filename").bind Elem.text).map (joinPath annoDir)

def digitVal (c : Char) : Option Nat :=
  if decide (('0' : Char) ≤ c) && decide (c ≤ ('9' : Char)) then
    some (c.toNat - ('0' : Char).toNat)
  else none

def natFromDigits : List Char → Nat → Option Nat
  | [], acc => some acc
  | c :: rest, acc =>
    match digitVal c with
    | none => none
    | some d => natFromDigits rest (acc * 10 + d)

/-- Python `int(text)` on the plain decimal strings found in `<bndbox>`
children: an optional minus sign followed by at least one digit;
anything else raises `ValueError`. -/
def pyInt (s : String) : Option Int :=
  match s.data with
  | [] => none
  | '-' :: rest =>
    if rest.isEmpty then none
    else (natFromDigits rest 0).map (fun n => -(n : Int))
  | l => (natFromDigits l 0).map (fun n => (n : Int))

/-- `labels.index(label)` when an explicit label list is supplied
(`ValueError` on a miss), `None` otherwise (`dataset.py` lines 93–97). -/
def labelIdxFor (labels : Option (List String)) (label : String) :
    Option (Option Nat) :=
  match labels with
  | none => some none
  | some ls => (ls.indexOf? label).map some

/-- One `<object>` element of `parse_pascal_voc_anno`
(`dataset.py` lines 85–106): read `<name>`, the four `<bndbox>` integer
children, resolve the label index, build the box and `assert` validity. -/
def parseObj (labels : Option (List String)) (imPath : String) (obj : Elem) :
    Option AnnotationBbox := do
  let label ← (obj.find "name").bind Elem.text
  let bndBox ← obj.find "bndbox"
  let left ← ((bndBox.find "xmin").bind Elem.text).bind pyInt
  let top ← ((bndBox.find "ymin").bind Elem.text).bind pyInt
  let right ← ((bndBox.find "xmax").bind Elem.text).bind pyInt
  let bottom ← ((bndBox.find "ymax").bind Elem.text).bind pyInt
  let idx ← labelIdxFor labels label
  let b : AnnotationBbox :=
    { left := left, top := top, right := right, bottom := bottom,
      label_name := label, label_idx := idx, im_path := imPath }
  if b.is_valid then some b else none

/-- `parse_pascal_voc_anno` (`dataset.py` lines 52–108): resolve the image
path, then parse every `<object>` child into a box. -/
def parse_pascal_voc_anno (annoDir : String) (root : Elem)
    (labels : Option (List String)) :
    Option (List AnnotationBbox × String) :=
  match pascalImPath annoDir root with
  | none => none
  | some imPath =>
    match traverseOption (parseObj labels imPath) (root.findall "object") with
    | none => none
    | some bboxes => some (bboxes, imPath)

/-- The fixed sample cap of the COCO branch: `self.SIZE = 20`
(`dataset.py` line 208). -/
def SIZE : Nat := 20

/-- The COCO branch of `_read_annos` (`dataset.py` lines 206–233), up to the
point where image paths and annotation lists are fixed: take the first
`SIZE` image ids of the annotation index (in its key order) and keep
exactly those whose annotation list is nonempty.  Each input pair is an
image id's `(file_name, annotations)` data. -/
def cocoRecords (imgs : List (String × List α)) : List (String × List α) :=
  (imgs.take SIZE).filter (fun p => p.2.length != 0)

/-- The characters of `l` after the last occurrence of `sep` (all of `l`
when `sep` does not occur); `acc` holds the current segment reversed. -/
def lastSegment (sep : Char) : List Char → List Char → List Char
  | [], acc => acc.reverse
  | c :: rest, acc =>
    if c == sep then lastSegment sep rest []
    else lastSegment sep rest (c :: acc)

/-- `os.path.basename`: the part after the last `/`. -/
def basename (s : String) : String :=
  String.mk (lastSegment '/' s.data [])

/-- The characters of `l` strictly before the last occurrence of `sep`
(empty when `sep` does not occur). -/
def beforeLast (sep : Char) (l : List Char) : List Char :=
  ((l.reverse.dropWhile (fun c => !(c == sep))).drop 1).reverse

/-- `mask_name[:mask_name.rindex('.')] + ".png"` (`dataset.py` line 267):
replace everything after the last dot by `png`.  (Python raises when no
dot is present; image filenames always carry an extension.) -/
def replaceExtPng (s : String) : String :=
  String.mk (beforeLast '.' s.data) ++ ".png"

/-- The expected mask file `self.root / self.mask_dir / mask_name`
(`dataset.py` lines 266–268). -/
def maskNameOf (rootDir maskDir imPath : String) : String :=
  joinPath (joinPath rootDir maskDir) (replaceExtPng (basename imPath))

/-- The four parallel accumulator lists of the directory branch of
`_read_annos` (`dataset.py` lines 244–247). -/
structure ReadState where
  im_paths : List String
  anno_paths : List String
  anno_bboxes : List (List AnnotationBbox)
  mask_paths : List String
deriving Repr, DecidableEq

def ReadState.empty : ReadState := ⟨[], [], [], []⟩

/-- One iteration of the annotation loop of `_read_annos`
(`dataset.py` lines 248–277).  An entry is `(anno_path, im_path, boxes)`:
the annotation path, the image path the loop will append, and the boxes
returned by `parse_pascal_voc_anno`.  A zero-box annotation is skipped;
otherwise the image path is appended, and in mask mode a missing mask file
makes the loop `del self.im_paths[-1]` (dropping the just-appended path —
modelled by `dropLast`) and `continue`. -/
def read_annos_step (rootDir : String) (maskDir : Option String)
    (fsExists : String → Bool) (st : ReadState)
    (e : String × String × List AnnotationBbox) : ReadState :=
  let annoPath := e.1
  let imPath := e.2.1
  let bbs := e.2.2
  if bbs.isEmpty then st
  else
    let st1 : ReadState := { st with im_paths := st.im_paths ++ [imPath] }
    match maskDir with
    | some md =>
      let maskName := maskNameOf rootDir md imPath
      if fsExists maskName then
        { st1 with
            mask_paths := st1.mask_paths ++ [maskName],
            anno_paths := st1.anno_paths ++ [annoPath],
            anno_bboxes := st1.anno_bboxes ++ [bbs] }
      else
        { st1 with im_paths := st1.im_paths.dropLast }
    | none =>
      { st1 with
          anno_paths := st1.anno_paths ++ [annoPath],
          anno_bboxes := st1.anno_bboxes ++ [bbs] }

/-- The whole annotation loop of the directory branch of `_read_annos`,
run from empty accumulators. -/
def read_annos_loop (rootDir : String) (maskDir : Option String)
    (fsExists : String → Bool)
    (entries : List (String × String × List AnnotationBbox)) : ReadState :=
  entries.foldl (read_annos_step rootDir maskDir fsExists) ReadState.empty

/-- `parse_pascal_voc_anno` applied to one annotation file of the loop
(`dataset.py` line 253), keeping the image path chosen by the `im_dir`
mode (`dataset.py` line 263).  A file is `(anno_path, im_path, xml_root)`. -/
def entryOf (annoDir : String) (labels : Option (List String))
    (f : String × String × Elem) :
    Option (String × String × List AnnotationBbox) :=
  (parse_pascal_voc_anno annoDir f.2.2 labels).map (fun r => (f.1, f.2.1, r.1))

/-- The label-collection pass of `_read_annos` (`dataset.py` lines
282–285): every box's `label_name`, in record order. -/
def collectLabels (annoBboxes : List (List AnnotationBbox)) : List String :=
  (annoBboxes.map (fun bbs => bbs.map (fun b => b.label_name))).flatten

/-- `self.labels = list(set(labels))` (`dataset.py` line 286): the result
is some duplicate-free enumeration of the set of collected names.  Python
set iteration order over strings depends on the per-process hash seed, so
the enumeration `e` is a parameter; `SetEnum l e` says `e` is a possible
value of `list(set(l))`. -/
def SetEnum (l e : List String) : Prop :=
  e.Nodup ∧ ∀ s, s ∈ e ↔ s ∈ l

/-- The back-fill pass of `_read_annos` (`dataset.py` lines 290–294):
`anno_bbox.label_idx = self.labels.index(anno_bbox.label_name) + 1`.
(`List.indexOf` equals Python `list.index` whenever the name occurs in
`labels`, which the collection pass guarantees.) -/
def assign_label_idx (labels : List String)
    (annoBboxes : List (List AnnotationBbox)) : List (List AnnotationBbox) :=
  annoBboxes.map (fun bbs =>
    bbs.map (fun b =>
      { b with label_idx := some (labels.indexOf b.label_name + 1) }))

/-- The tail of `_read_annos`: finalize `self.labels` (as the enumeration
`enum`) and back-fill every box's `label_idx`. -/
def finalize_labels (enum : List String) (st : ReadState) : ReadState :=
  { st with anno_bboxes := assign_label_idx enum st.anno_bboxes }

/-- A state of torch's global pseudo-random generator, abstracted to what
`split_train_test` consumes: for every `n`, `torch.randperm(n)` yields a
permutation of `[0..n)`. -/
structure TorchGen where
  randperm : Nat → List Nat
  randperm_perm : ∀ n, (randperm n).Perm (List.range n)

/-- The generator whose `randperm n` is the identity permutation. -/
def idGen : TorchGen :=
  ⟨fun n => List.range n, fun _ => List.Perm.refl _⟩

/-- The generator whose `randperm n` is the reversal of `[0..n)`. -/
def revGen : TorchGen :=
  ⟨fun n => (List.range n).reverse, fun n => (List.range n).reverse_perm⟩

/-- `math.floor(len(self) * (1 - train_pct))` (`dataset.py` line 310),
over exact rationals, truncated to `Nat` for list slicing (faithful for
`0 ≤ train_pct ≤ 1`, where the floor is nonnegative). -/
def testNum (n : Nat) (train_pct : ℚ) : Nat :=
  (⌊(n : ℚ) * (1 - train_pct)⌋).toNat

/-- The generator `torch.randperm` reads after the guarded reseeding
`if self.seed: torch.manual_seed(self.seed)` (`dataset.py` lines 311–312):
only a seed that is Python-truthy (present and nonzero) installs the
seeded state; otherwise the ambient global state is used. -/
def effectiveGen (manualSeed : Int → TorchGen) (ambient : TorchGen)
    (seed : Option Int) : TorchGen :=
  match seed with
  | some s => if s ≠ 0 then manualSeed s else ambient
  | none => ambient

/-- `DetectionDataset.split_train_test` (`dataset.py` lines 296–325).
`manualSeed` models `torch.manual_seed` (the generator state it installs
for each seed value); `ambient` is the global generator state the call
would otherwise find.  Returns `(train_idx, test_idx, is_test)`:
`train_idx = indices[test_num:]`, `test_idx = indices[:test_num + 1]`,
and `is_test[i]` true exactly for the members of `test_idx`. -/
def split_train_test (manualSeed : Int → TorchGen) (ambient : TorchGen)
    (seed : Option Int) (n : Nat) (train_pct : ℚ) :
    List Nat × List Nat × List Bool :=
  let t := testNum n train_pct
  let indices := (effectiveGen manualSeed ambient seed).randperm n
  let train_idx := indices.drop t
  let test_idx := indices.take (t + 1)
  let is_test := (List.range n).map (fun i => decide (i ∈ test_idx))
  (train_idx, test_idx, is_test)

/-- The target dictionary built by `DetectionDataset.__getitem__`
(`dataset.py` lines 392–412), restricted to the always-present keys (the
optional mask / keypoint tensors and the image I/O are not modelled). -/
structure Target where
  boxes : List (Int × Int × Int × Int)
  labels : List (Option Nat)
  image_id : List Nat
  area : List Int
  iscrowd : List Int
deriving Repr, DecidableEq

/-- `__getitem__`'s target assembly for record `idx`: parallel
comprehensions over `self.anno_bboxes[idx]`, plus
`torch.zeros((len(boxes),))` for `iscrowd`. -/
def dataset_getitem (anno_bboxes : List (List AnnotationBbox)) (idx : Nat) :
    Target :=
  let bbs := anno_bboxes.getD idx []
  { boxes := bbs.map AnnotationBbox.rect,
    labels := bbs.map AnnotationBbox.label_idx,
    image_id := [idx],
    area := bbs.map AnnotationBbox.surface_area,
    iscrowd := List.replicate (bbs.map AnnotationBbox.rect).length 0 }

/-! ## Theorems about the train/test splitter -/

/-- The test slice never outruns the record count: `testNum n p < n`
whenever `0 < p` and `1 ≤ n`. -/
theorem testNum_lt (n : Nat) (p : ℚ) (h0 : 0 < p) (hn : 1 ≤ n) :
    testNum n p < n := by
  have hnpos : (0 : ℚ) < (n : ℚ) := by exact_mod_cast hn
  have hx : (n : ℚ) * (1 - p) < ((n : Int) : ℚ) := by
    push_cast
    nlinarith [mul_pos hnpos h0]
  have hfl : ⌊(n : ℚ) * (1 - p)⌋ < (n : Int) := Int.floor_lt.mpr hx
  simp only [testNum]
  omega

/-- C1: evaluation of `split_train_test` at the failing input — 39
records, `train_pct = 0.5` (the repository unit test's configuration),
identity permutation, seed 9.  The returned train and test index lists
have 20 elements each (20 + 20 > 39) and the permuted index at position
`test_num = 19` belongs to both, so the two sets overlap rather than
partition `[0..39)`; the repository's own test expects sizes 19 and 20. -/
theorem split_train_test_not_partition_at_39 :
    (split_train_test (fun _ => idGen) idGen (some 9) 39 (1/2)).1.length = 20 ∧
    (split_train_test (fun _ => idGen) idGen (some 9) 39 (1/2)).2.1.length = 20 ∧
    19 ∈ (split_train_test (fun _ => idGen) idGen (some 9) 39 (1/2)).1 ∧
    19 ∈ (split_train_test (fun _ => idGen) idGen (some 9) 39 (1/2)).2.1 := by
  have h : testNum 39 (1/2) = 19 := by norm_num [testNum] <;> decide
  simp only [split_train_test, effectiveGen, h, idGen]
  refine ⟨by decide, by decide, by decide, by decide⟩

/-- C2 counterexample: at 39 records and `train_pct = 0.75` (the spec's
own calibration point) the returned train set has
`39 - test_num = 30` elements, not `39 - test_num - 1 = 29` as claimed. -/
theorem split_train_size_not_minus_one :
    (split_train_test (fun _ => idGen) idGen (some 9) 39 (3/4)).1.length
      ≠ 39 - testNum 39 (3/4) - 1 := by
  have h : testNum 39 (3/4) = 9 := by norm_num [testNum] <;> decide
  simp only [split_train_test, effectiveGen, h, idGen]
  decide

/-- C2 (amended): for `0 < p ≤ 1` and `n ≥ 1`, the test set returned by
`split_train_test` has `testNum n p + 1` elements and the train set has
`n - testNum n p` elements (one more than the spec's
`n - testNum n p - 1`: the index at permutation position `testNum n p`
is shared by both slices). -/
theorem split_train_test_sizes (manualSeed : Int → TorchGen)
    (ambient : TorchGen) (seed : Option Int) (n : Nat) (p : ℚ)
    (h0 : 0 < p) (hn : 1 ≤ n) :
    (split_train_test manualSeed ambient seed n p).2.1.length
        = testNum n p + 1 ∧
    (split_train_test manualSeed ambient seed n p).1.length
        = n - testNum n p := by
  have hlt : testNum n p < n := testNum_lt n p h0 hn
  have hlen : ((effectiveGen manualSeed ambient seed).randperm n).length = n :=
    ((effectiveGen manualSeed ambient seed).randperm_perm n).length_eq.trans
      (List.length_range n)
  constructor
  · simp only [split_train_test, List.length_take, hlen]
    omega
  · simp only [split_train_test, List.length_drop, hlen]

/-- C2 witness: the amended size statement instantiated at the spec's
calibration point `n = 39`, `p = 3/4` (test set of `9 + 1 = 10`). -/
theorem split_train_test_sizes_at_39 :
    (0 : ℚ) < 3/4 ∧ 1 ≤ 39 ∧
    ((split_train_test (fun _ => idGen) idGen (some 9) 39 (3/4)).2.1.length
        = testNum 39 (3/4) + 1 ∧
     (split_train_test (fun _ => idGen) idGen (some 9) 39 (3/4)).1.length
        = 39 - testNum 39 (3/4)) :=
  ⟨by norm_num, by norm_num,
    split_train_test_sizes (fun _ => idGen) idGen (some 9) 39 (3/4)
      (by norm_num) (by norm_num)⟩

/-- C4 counterexample: with seed value 0 the guard `if self.seed:` is
falsy, so the ambient generator state is used and two invocations that
find different ambient states (here: identity vs reversal on 3 records,
`train_pct = 2/3`) return different train/test index lists and a
different `is_test` assignment — the claim fails for the integer seed 0. -/
theorem split_seed_zero_not_deterministic :
    split_train_test (fun _ => idGen) idGen (some 0) 3 (2/3)
      ≠ split_train_test (fun _ => idGen) revGen (some 0) 3 (2/3) := by
  have h : testNum 3 (2/3) = 1 := by norm_num [testNum] <;> decide
  simp only [split_train_test, effectiveGen, h, idGen, revGen]
  decide

/-- C4 (amended): for every *nonzero* integer seed, two invocations of
`split_train_test` with that seed on the same record count agree on
everything they return — the train indices, the test indices and the
`is_test` assignment — whatever ambient generator states the two calls
encounter. -/
theorem split_nonzero_seed_deterministic (manualSeed : Int → TorchGen)
    (amb1 amb2 : TorchGen) (s : Int) (hs : s ≠ 0) (n : Nat) (p : ℚ) :
    split_train_test manualSeed amb1 (some s) n p
      = split_train_test manualSeed amb2 (some s) n p := by
  simp only [split_train_test, effectiveGen, if_pos hs]

/-- C4 witness: determinism instantiated at seed 9, 5 records,
`train_pct = 1/2`, with the two calls finding distinct ambient states. -/
theorem split_nonzero_seed_deterministic_at_9 :
    (9 : Int) ≠ 0 ∧
    split_train_test (fun _ => idGen) idGen (some 9) 5 (1/2)
      = split_train_test (fun _ => idGen) revGen (some 9) 5 (1/2) :=
  ⟨by decide,
    split_nonzero_seed_deterministic (fun _ => idGen) idGen revGen 9
      (by decide) 5 (1/2)⟩

/-! ## Theorems about the annotation parser -/

/-- A typical Pascal-VOC annotation carrying both a `<path>` element
(text only, as `<path>` always is) and a `<filename>` element, and no
objects. -/
def pathAndFilenameRoot : Elem :=
  .node "annotation" none
    [ .node "path" (some "../other_images/a.jpg") [],
      .node "filename" (some "b.jpg") [] ]

/-- C3: the failing input.  `pathAndFilenameRoot` does contain a `<path>`
element, yet `parse_pascal_voc_anno` resolves the image path from
`<filename>`: the guard `if root.find("path"):` tests Python element
truthiness, and an element with text but no child elements is falsy, so
the `<path>` branch is unreachable for every ordinary `<path>` node. -/
theorem parse_path_element_ignored :
    (pathAndFilenameRoot.find "path").isSome = true ∧
    parse_pascal_voc_anno "root/annotations" pathAndFilenameRoot none
      = some ([], joinPath "root/annotations" "b.jpg") ∧
    joinPath "root/annotations" "b.jpg"
      ≠ joinPath "root/annotations" "../other_images/a.jpg" :=
  ⟨rfl, rfl, by decide⟩

/-! ## Theorems about the COCO branch of `_read_annos` -/

/-- C5: whatever the COCO annotation index contains, the dataset records
it yields are at most `SIZE = 20`, and every one of them comes from the
first 20 image ids — later image ids are never enumerated. -/
theorem cocoRecords_capped {α : Type} (imgs : List (String × List α)) :
    SIZE = 20 ∧ (cocoRecords imgs).length ≤ 20 ∧
    ∀ r ∈ cocoRecords imgs, r ∈ imgs.take 20 := by
  refine ⟨rfl, ?_, ?_⟩
  · calc (cocoRecords imgs).length ≤ (imgs.take SIZE).length :=
          List.length_filter_le _ _
      _ ≤ 20 := by simpa [SIZE] using List.length_take_le SIZE imgs
  · intro r hr
    exact List.mem_of_mem_filter hr

/-! ## Helper lemmas for the directory branch of `_read_annos` -/

theorem traverseOption_length (f : α → Option β) (l : List α) :
    ∀ r, traverseOption f l = some r → r.length = l.length := by
  induction l with
  | nil =>
    intro r h
    simp only [traverseOption, Option.some.injEq] at h
    subst h
    rfl
  | cons a t ih =>
    intro r h
    simp only [traverseOption] at h
    cases hfa : f a with
    | none => rw [hfa] at h; simp at h
    | some b =>
      rw [hfa] at h
      cases ht : traverseOption f t with
      | none => rw [ht] at h; simp at h
      | some bs =>
        rw [ht] at h
        simp only [Option.some.injEq] at h
        subst h
        simp [ih bs ht]

theorem traverseOption_countP (f : α → Option β) (p : β → Bool)
    (q : α → Bool) (hpq : ∀ a b, f a = some b → p b = q a) (l : List α) :
    ∀ r, traverseOption f l = some r → r.countP p = l.countP q := by
  induction l with
  | nil =>
    intro r h
    simp only [traverseOption, Option.some.injEq] at h
    subst h
    rfl
  | cons a t ih =>
    intro r h
    simp only [traverseOption] at h
    cases hfa : f a with
    | none => rw [hfa] at h; simp at h
    | some b =>
      rw [hfa] at h
      cases ht : traverseOption f t with
      | none => rw [ht] at h; simp at h
      | some bs =>
        rw [ht] at h
        simp only [Option.some.injEq] at h
        subst h
        simp [List.countP_cons, ih bs ht, hpq a b hfa]

theorem countP_bool_not_add (p : α → Bool) (l : List α) :
    l.countP (fun a => !p a) + l.countP p = l.length := by
  induction l with
  | nil => rfl
  | cons a t ih =>
    simp only [List.countP_cons, List.length_cons]
    cases hp : p a <;> simp [hp] <;> omega

theorem countP_bool_three_way (p q : α → Bool) (l : List α) :
    l.countP (fun a => p a && q a) + l.countP (fun a => p a && !q a)
      + l.countP (fun a => !p a) = l.length := by
  induction l with
  | nil => rfl
  | cons a t ih =>
    simp only [List.countP_cons, List.length_cons]
    cases hp : p a <;> cases hq : q a <;> simp [hp, hq] <;> omega

/-- The number of boxes `parse_pascal_voc_anno` returns equals the number
of `<object>` children of the annotation root. -/
theorem parse_boxes_length (annoDir : String) (root : Elem)
    (labels : Option (List String)) (bbs : List AnnotationBbox) (ip : String)
    (h : parse_pascal_voc_anno annoDir root labels = some (bbs, ip)) :
    bbs.length = (root.findall "object").length := by
  unfold parse_pascal_voc_anno at h
  split at h
  · exact absurd h (by simp)
  · split at h
    · exact absurd h (by simp)
    · rename_i imp _ bs hto
      simp only [Option.some.injEq, Prod.mk.injEq] at h
      obtain ⟨hb, hip⟩ := h
      subst hb
      subst hip
      exact traverseOption_length _ _ bs hto

/-- A parse succeeds with zero boxes exactly when the annotation has zero
`<object>` children. -/
theorem parse_boxes_isEmpty (annoDir : String) (root : Elem)
    (labels : Option (List String)) (bbs : List AnnotationBbox) (ip : String)
    (h : parse_pascal_voc_anno annoDir root labels = some (bbs, ip)) :
    bbs.isEmpty = (root.findall "object").isEmpty := by
  have hl := parse_boxes_length annoDir root labels bbs ip h
  cases bbs <;> cases hob : root.findall "object" <;> simp_all

/-- Destructor for `entryOf`: a successful entry keeps the file's
annotation path and image path, and carries the parsed boxes. -/
theorem entryOf_eq_some (annoDir : String) (labels : Option (List String))
    (f : String × String × Elem)
    (e : String × String × List AnnotationBbox)
    (h : entryOf annoDir labels f = some e) :
    e.1 = f.1 ∧ e.2.1 = f.2.1 ∧
    ∃ ip, parse_pascal_voc_anno annoDir f.2.2 labels = some (e.2.2, ip) := by
  simp only [entryOf, Option.map_eq_some'] at h
  obtain ⟨⟨bbs, ip⟩, hp, he⟩ := h
  subst he
  exact ⟨rfl, rfl, ip, hp⟩

/-- State-length bookkeeping for the annotation loop without mask mode:
each accumulator grows by the number of entries with at least one box;
`mask_paths` is untouched. -/
theorem read_annos_foldl_none (rootDir : String) (fsExists : String → Bool)
    (entries : List (String × String × List AnnotationBbox)) :
    ∀ st : ReadState,
      ((entries.foldl (read_annos_step rootDir none fsExists) st).im_paths.length
          = st.im_paths.length + entries.countP (fun e => !e.2.2.isEmpty)) ∧
      ((entries.foldl (read_annos_step rootDir none fsExists) st).anno_paths.length
          = st.anno_paths.length + entries.countP (fun e => !e.2.2.isEmpty)) ∧
      ((entries.foldl (read_annos_step rootDir none fsExists) st).anno_bboxes.length
          = st.anno_bboxes.length + entries.countP (fun e => !e.2.2.isEmpty)) ∧
      ((entries.foldl (read_annos_step rootDir none fsExists) st).mask_paths.length
          = st.mask_paths.length) := by
  induction entries with
  | nil => intro st; simp
  | cons e t ih =>
    intro st
    obtain ⟨a, ip, bbs⟩ := e
    cases hbe : bbs.isEmpty with
    | true =>
      have hstep : read_annos_step rootDir none fsExists st (a, ip, bbs) = st := by
        simp [read_annos_step, hbe]
      have hcnt : ((a, ip, bbs) :: t).countP (fun e => !e.2.2.isEmpty)
          = t.countP (fun e => !e.2.2.isEmpty) := by
        simp [List.countP_cons, hbe]
      rw [List.foldl_cons, hstep, hcnt]
      exact ih st
    | false =>
      have hstep : read_annos_step rootDir none fsExists st (a, ip, bbs)
          = { st with
                im_paths := st.im_paths ++ [ip],
                anno_paths := st.anno_paths ++ [a],
                anno_bboxes := st.anno_bboxes ++ [bbs] } := by
        simp [read_annos_step, hbe]
      have hcnt : ((a, ip, bbs) :: t).countP (fun e => !e.2.2.isEmpty)
          = t.countP (fun e => !e.2.2.isEmpty) + 1 := by
        simp [List.countP_cons, hbe]
      rw [List.foldl_cons, hstep, hcnt]
      obtain ⟨h1, h2, h3, h4⟩ := ih { st with
        im_paths := st.im_paths ++ [ip],
        anno_paths := st.anno_paths ++ [a],
        anno_bboxes := st.anno_bboxes ++ [bbs] }
      refine ⟨?_, ?_, ?_, ?_⟩
      · rw [h1]; simp; omega
      · rw [h2]; simp; omega
      · rw [h3]; simp; omega
      · rw [h4]

/-- State-length bookkeeping for the annotation loop in mask mode: each
accumulator (the mask list included) grows by the number of entries with
at least one box *and* an existing mask file; an entry whose mask is
missing leaves every accumulator unchanged (`del self.im_paths[-1]`
reverts the append). -/
theorem read_annos_foldl_mask (rootDir md : String) (fsExists : String → Bool)
    (entries : List (String × String × List AnnotationBbox)) :
    ∀ st : ReadState,
      ((entries.foldl (read_annos_step rootDir (some md) fsExists) st).im_paths.length
          = st.im_paths.length + entries.countP
              (fun e => !e.2.2.isEmpty && fsExists (maskNameOf rootDir md e.2.1))) ∧
      ((entries.foldl (read_annos_step rootDir (some md) fsExists) st).anno_paths.length
          = st.anno_paths.length + entries.countP
              (fun e => !e.2.2.isEmpty && fsExists (maskNameOf rootDir md e.2.1))) ∧
      ((entries.foldl (read_annos_step rootDir (some md) fsExists) st).anno_bboxes.length
          = st.anno_bboxes.length + entries.countP
              (fun e => !e.2.2.isEmpty && fsExists (maskNameOf rootDir md e.2.1))) ∧
      ((entries.foldl (read_annos_step rootDir (some md) fsExists) st).mask_paths.length
          = st.mask_paths.length + entries.countP
              (fun e => !e.2.2.isEmpty && fsExists (maskNameOf rootDir md e.2.1))) := by
  induction entries with
  | nil => intro st; simp
  | cons e t ih =>
    intro st
    obtain ⟨a, ip, bbs⟩ := e
    cases hbe : bbs.isEmpty with
    | true =>
      have hstep : read_annos_step rootDir (some md) fsExists st (a, ip, bbs) = st := by
        simp [read_annos_step, hbe]
      have hcnt : ((a, ip, bbs) :: t).countP
            (fun e => !e.2.2.isEmpty && fsExists (maskNameOf rootDir md e.2.1))
          = t.countP
            (fun e => !e.2.2.isEmpty && fsExists (maskNameOf rootDir md e.2.1)) := by
        simp [List.countP_cons, hbe]
      rw [List.foldl_cons, hstep, hcnt]
      exact ih st
    | false =>
      cases hfs : fsExists (maskNameOf rootDir md ip) with
      | true =>
        have hstep : read_annos_step rootDir (some md) fsExists st (a, ip, bbs)
            = { st with
                  im_paths := st.im_paths ++ [ip],
                  mask_paths := st.mask_paths ++ [maskNameOf rootDir md ip],
                  anno_paths := st.anno_paths ++ [a],
                  anno_bboxes := st.anno_bboxes ++ [bbs] } := by
          simp [read_annos_step, hbe, hfs]
        have hcnt : ((a, ip, bbs) :: t).countP
              (fun e => !e.2.2.isEmpty && fsExists (maskNameOf rootDir md e.2.1))
            = t.countP
              (fun e => !e.2.2.isEmpty && fsExists (maskNameOf rootDir md e.2.1))
              + 1 := by
          simp [List.countP_cons, hbe, hfs]
        rw [List.foldl_cons, hstep, hcnt]
        obtain ⟨h1, h2, h3, h4⟩ := ih { st with
          im_paths := st.im_paths ++ [ip],
          mask_paths := st.mask_paths ++ [maskNameOf rootDir md ip],
          anno_paths := st.anno_paths ++ [a],
          anno_bboxes := st.anno_bboxes ++ [bbs] }
        refine ⟨?_, ?_, ?_, ?_⟩
        · rw [h1]; simp; omega
        · rw [h2]; simp; omega
        · rw [h3]; simp; omega
        · rw [h4]; simp; omega
      | false =>
        have hstep : read_annos_step rootDir (some md) fsExists st (a, ip, bbs)
            = { st with im_paths := (st.im_paths ++ [ip]).dropLast } := by
          simp [read_annos_step, hbe, hfs]
        have hdl : ({ st with im_paths := (st.im_paths ++ [ip]).dropLast } : ReadState)
            = st := by
          simp
        have hcnt : ((a, ip, bbs) :: t).countP
              (fun e => !e.2.2.isEmpty && fsExists (maskNameOf rootDir md e.2.1))
            = t.countP
              (fun e => !e.2.2.isEmpty && fsExists (maskNameOf rootDir md e.2.1)) := by
          simp [List.countP_cons, hbe, hfs]
        rw [List.foldl_cons, hstep, hdl, hcnt]
        exact ih st

/-! ## Theorems about the directory branch of `_read_annos` -/

/-- C7: given `N` annotation files, of which `K` have zero `<object>`
children, all parsing successfully, the index built without mask mode
retains exactly `N - K` records — zero-box annotations are skipped
entirely, annotations with at least one box are kept. -/
theorem read_annos_dir_record_count (rootDir annoDir : String)
    (labels : Option (List String)) (fsExists : String → Bool)
    (files : List (String × String × Elem))
    (entries : List (String × String × List AnnotationBbox))
    (hparse : traverseOption (entryOf annoDir labels) files = some entries) :
    (read_annos_loop rootDir none fsExists entries).anno_bboxes.length
      = files.length
        - files.countP (fun f => (f.2.2.findall "object").isEmpty) := by
  have hN : entries.length = files.length :=
    traverseOption_length _ _ _ hparse
  have hK : entries.countP (fun e => e.2.2.isEmpty)
      = files.countP (fun f => (f.2.2.findall "object").isEmpty) := by
    refine traverseOption_countP _ _ _ ?_ files entries hparse
    intro f e hfe
    obtain ⟨-, -, ip, hp⟩ := entryOf_eq_some annoDir labels f e hfe
    exact parse_boxes_isEmpty annoDir f.2.2 labels e.2.2 ip hp
  have hadd : entries.countP (fun e => !e.2.2.isEmpty)
      + entries.countP (fun e => e.2.2.isEmpty) = entries.length :=
    countP_bool_not_add _ _
  obtain ⟨-, -, h3, -⟩ :=
    read_annos_foldl_none rootDir fsExists entries ReadState.empty
  have h0 : ReadState.empty.anno_bboxes.length = 0 := rfl
  simp only [read_annos_loop]
  rw [h3, h0]
  omega

/-- Concrete corpus for the record-count witnesses: two annotations with
one valid `cup` object each and one annotation with no objects. -/
def cupObj : Elem :=
  .node "object" none
    [ .node "name" (some "cup") [],
      .node "bndbox" none
        [ .node "xmin" (some "61") [], .node "ymin" (some "59") [],
          .node "xmax" (some "273") [], .node "ymax" (some "244") [] ] ]

def fileWithBox : String × String × Elem :=
  ("root/annotations/a.xml", "root/images/a.jpg",
    .node "annotation" none [ .node "filename" (some "a.jpg") [], cupObj ])

def fileB : String × String × Elem :=
  ("root/annotations/b.xml", "root/images/b.jpg",
    .node "annotation" none [ .node "filename" (some "b.jpg") [], cupObj ])

def fileNoBox : String × String × Elem :=
  ("root/annotations/c.xml", "root/images/c.jpg",
    .node "annotation" none [ .node "filename" (some "c.jpg") [] ])

def cupBoxA : AnnotationBbox :=
  { left := 61, top := 59, right := 273, bottom := 244,
    label_name := "cup", label_idx := none,
    im_path := "root/annotations/a.jpg" }

def cupBoxB : AnnotationBbox :=
  { left := 61, top := 59, right := 273, bottom := 244,
    label_name := "cup", label_idx := none,
    im_path := "root/annotations/b.jpg" }

def c7files : List (String × String × Elem) := [fileWithBox, fileNoBox]

def c7entries : List (String × String × List AnnotationBbox) :=
  [ ("root/annotations/a.xml", "root/images/a.jpg", [cupBoxA]),
    ("root/annotations/c.xml", "root/images/c.jpg", []) ]

/-- C7 witness: two annotation files, one with a single object and one
with none, give an index of exactly one record. -/
theorem read_annos_dir_record_count_example :
    traverseOption (entryOf "root/annotations" none) c7files = some c7entries ∧
    (read_annos_loop "root" none (fun _ => false) c7entries).anno_bboxes.length
      = c7files.length
        - c7files.countP (fun f => (f.2.2.findall "object").isEmpty) ∧
    (read_annos_loop "root" none (fun _ => false) c7entries).anno_bboxes.length
      = 1 :=
  ⟨rfl,
    read_annos_dir_record_count "root" "root/annotations" none (fun _ => false)
      c7files c7entries rfl,
    rfl⟩

/-- C8: in mask mode, with `N` annotation files, `K` of them without
objects and `M` of the box-bearing ones without an existing mask file
(same basename, `.png`, under the mask subfolder), the index retains
exactly `N - K - M` records; a missing mask drops the record together
with its already-appended image path, and the four accumulator lists end
up the same length. -/
theorem read_annos_mask_mode_counts (rootDir annoDir md : String)
    (labels : Option (List String)) (fsExists : String → Bool)
    (files : List (String × String × Elem))
    (entries : List (String × String × List AnnotationBbox))
    (hparse : traverseOption (entryOf annoDir labels) files = some entries) :
    (read_annos_loop rootDir (some md) fsExists entries).im_paths.length
      = files.length
        - files.countP (fun f => (f.2.2.findall "object").isEmpty)
        - files.countP (fun f => !(f.2.2.findall "object").isEmpty
            && !fsExists (maskNameOf rootDir md f.2.1)) ∧
    (read_annos_loop rootDir (some md) fsExists entries).mask_paths.length
      = (read_annos_loop rootDir (some md) fsExists entries).im_paths.length ∧
    (read_annos_loop rootDir (some md) fsExists entries).anno_paths.length
      = (read_annos_loop rootDir (some md) fsExists entries).im_paths.length ∧
    (read_annos_loop rootDir (some md) fsExists entries).anno_bboxes.length
      = (read_annos_loop rootDir (some md) fsExists entries).im_paths.length := by
  have hN : entries.length = files.length :=
    traverseOption_length _ _ _ hparse
  have hK : entries.countP (fun e => e.2.2.isEmpty)
      = files.countP (fun f => (f.2.2.findall "object").isEmpty) := by
    refine traverseOption_countP _ _ _ ?_ files entries hparse
    intro f e hfe
    obtain ⟨-, -, ip, hp⟩ := entryOf_eq_some annoDir labels f e hfe
    exact parse_boxes_isEmpty annoDir f.2.2 labels e.2.2 ip hp
  have hkeep : entries.countP
        (fun e => !e.2.2.isEmpty && fsExists (maskNameOf rootDir md e.2.1))
      = files.countP
        (fun f => !(f.2.2.findall "object").isEmpty
          && fsExists (maskNameOf rootDir md f.2.1)) := by
    refine traverseOption_countP _ _ _ ?_ files entries hparse
    intro f e hfe
    obtain ⟨-, h2, ip, hp⟩ := entryOf_eq_some annoDir labels f e hfe
    rw [parse_boxes_isEmpty annoDir f.2.2 labels e.2.2 ip hp, h2]
  have hthree : files.countP
        (fun f => !(f.2.2.findall "object").isEmpty
          && fsExists (maskNameOf rootDir md f.2.1))
      + files.countP
        (fun f => !(f.2.2.findall "object").isEmpty
          && !fsExists (maskNameOf rootDir md f.2.1))
      + files.countP (fun f => !(!(f.2.2.findall "object").isEmpty))
      = files.length :=
    countP_bool_three_way _ _ files
  simp only [Bool.not_not] at hthree
  have hKfiles : files.countP (fun f => (f.2.2.findall "object").isEmpty)
      = entries.countP (fun e => e.2.2.isEmpty) := hK.symm
  obtain ⟨h1, h2, h3, h4⟩ :=
    read_annos_foldl_mask rootDir md fsExists entries ReadState.empty
  have e1 : ReadState.empty.im_paths.length = 0 := rfl
  have e2 : ReadState.empty.mask_paths.length = 0 := rfl
  have e3 : ReadState.empty.anno_paths.length = 0 := rfl
  have e4 : ReadState.empty.anno_bboxes.length = 0 := rfl
  simp only [read_annos_loop]
  rw [h1, h2, h3, h4, e1, e2, e3, e4]
  omega

def c8files : List (String × String × Elem) := [fileWithBox, fileB, fileNoBox]

def c8entries : List (String × String × List AnnotationBbox) :=
  [ ("root/annotations/a.xml", "root/images/a.jpg", [cupBoxA]),
    ("root/annotations/b.xml", "root/images/b.jpg", [cupBoxB]),
    ("root/annotations/c.xml", "root/images/c.jpg", []) ]

/-- The filesystem oracle for the C8 witness: only `a`'s mask exists. -/
def c8fs (s : String) : Bool := s == "root/masks/a.png"

/-- C8 witness: three annotation files (one with a mask, one without, one
with no objects) leave exactly one fully-accumulated record, with all
four lists of length one. -/
theorem read_annos_mask_mode_counts_example :
    traverseOption (entryOf "root/annotations" none) c8files = some c8entries ∧
    ((read_annos_loop "root" (some "masks") c8fs c8entries).im_paths.length
        = c8files.length
          - c8files.countP (fun f => (f.2.2.findall "object").isEmpty)
          - c8files.countP (fun f => !(f.2.2.findall "object").isEmpty
              && !c8fs (maskNameOf "root" "masks" f.2.1)) ∧
      (read_annos_loop "root" (some "masks") c8fs c8entries).mask_paths.length
        = (read_annos_loop "root" (some "masks") c8fs c8entries).im_paths.length ∧
      (read_annos_loop "root" (some "masks") c8fs c8entries).anno_paths.length
        = (read_annos_loop "root" (some "masks") c8fs c8entries).im_paths.length ∧
      (read_annos_loop "root" (some "masks") c8fs c8entries).anno_bboxes.length
        = (read_annos_loop "root" (some "masks") c8fs c8entries).im_paths.length) ∧
    (read_annos_loop "root" (some "masks") c8fs c8entries).im_paths.length = 1 :=
  ⟨rfl,
    read_annos_mask_mode_counts "root" "root/annotations" "masks" none c8fs
      c8files c8entries rfl,
    rfl⟩

/-! ## Theorems about the label registry -/

/-- C9: after the back-fill pass over any enumeration `enum` of the
collected label set, every box of every retained record carries
`label_idx = some k` with `1 ≤ k ≤ len(labels)` — index 0 is never
assigned. -/
theorem label_idx_in_range (enum : List String) (st : ReadState)
    (h : SetEnum (collectLabels st.anno_bboxes) enum) :
    ∀ bbs ∈ (finalize_labels enum st).anno_bboxes, ∀ b ∈ bbs,
      ∃ k, b.label_idx = some k ∧ 1 ≤ k ∧ k ≤ enum.length := by
  intro bbs hbbs b hb
  simp only [finalize_labels, assign_label_idx, List.mem_map] at hbbs
  obtain ⟨bbs0, hbbs0, rfl⟩ := hbbs
  simp only [List.mem_map] at hb
  obtain ⟨b0, hb0, rfl⟩ := hb
  refine ⟨enum.indexOf b0.label_name + 1, rfl, Nat.succ_le_succ (Nat.zero_le _), ?_⟩
  have h1 : b0.label_name ∈ bbs0.map (fun b => b.label_name) :=
    List.mem_map_of_mem _ hb0
  have h2 : bbs0.map (fun b => b.label_name)
      ∈ st.anno_bboxes.map (fun bbs => bbs.map (fun b => b.label_name)) :=
    List.mem_map_of_mem _ hbbs0
  have hmem : b0.label_name ∈ collectLabels st.anno_bboxes :=
    List.mem_flatten.mpr ⟨_, h2, h1⟩
  have hidx : enum.indexOf b0.label_name < enum.length :=
    List.indexOf_lt_length.mpr ((h.2 b0.label_name).mpr hmem)
  omega

/-- A one-record state for the label-registry witnesses. -/
def stW : ReadState :=
  ⟨["root/images/a.jpg"], ["root/annotations/a.xml"], [[cupBoxA]], []⟩

/-- C9 witness: the range bound instantiated on a one-record corpus whose
only label is `cup`, enumerated as `["cup"]`. -/
theorem label_idx_in_range_example :
    SetEnum (collectLabels stW.anno_bboxes) ["cup"] ∧
    ∀ bbs ∈ (finalize_labels ["cup"] stW).anno_bboxes, ∀ b ∈ bbs,
      ∃ k, b.label_idx = some k ∧ 1 ≤ k ∧ k ≤ (["cup"] : List String).length :=
  ⟨⟨by decide, fun _ => Iff.rfl⟩,
    label_idx_in_range ["cup"] stW ⟨by decide, fun _ => Iff.rfl⟩⟩

/-- A second label for the enumeration-order counterexample. -/
def canBoxA : AnnotationBbox :=
  { left := 10, top := 10, right := 20, bottom := 20,
    label_name := "can", label_idx := none,
    im_path := "root/images/a.jpg" }

def abbs6 : List (List AnnotationBbox) := [[cupBoxA, canBoxA]]

/-- C6 counterexample: a corpus with the two labels `cup` and `can`
admits both `["cup", "can"]` and `["can", "cup"]` as values of
`list(set(labels))` (set order depends on the process's string-hash
seed); the finalized label lists differ and so do the back-filled
`label_idx` assignments, so the mapping is not deterministic across
runs. -/
theorem labels_order_not_deterministic :
    SetEnum (collectLabels abbs6) ["cup", "can"] ∧
    SetEnum (collectLabels abbs6) ["can", "cup"] ∧
    (["cup", "can"] : List String) ≠ ["can", "cup"] ∧
    assign_label_idx ["cup", "can"] abbs6
      ≠ assign_label_idx ["can", "cup"] abbs6 := by
  refine ⟨⟨by decide, fun s => Iff.rfl⟩, ⟨by decide, fun s => ?_⟩,
    by decide, by decide⟩
  show s ∈ (["can", "cup"] : List String) ↔ s ∈ (["cup", "can"] : List String)
  simp only [List.mem_cons, List.not_mem_nil, or_false]
  exact or_comm

/-- C6 (amended): any two enumerations of the collected label set are
permutations of each other — the label *set* is deterministic — and runs
that enumerate the set in the same order assign identical `label_idx`
maps. -/
theorem labels_same_set_for_any_enum (l e1 e2 : List String)
    (h1 : SetEnum l e1) (h2 : SetEnum l e2) :
    e1.Perm e2 ∧
    (∀ abbs, e1 = e2 →
      assign_label_idx e1 abbs = assign_label_idx e2 abbs) := by
  constructor
  · exact (List.perm_ext_iff_of_nodup h1.1 h2.1).mpr
      (fun a => (h1.2 a).trans ((h2.2 a).symm))
  · intro abbs he
    rw [he]

/-- C6 witness: the amended statement instantiated on the one-label
corpus. -/
theorem labels_same_set_for_any_enum_example :
    SetEnum (collectLabels stW.anno_bboxes) ["cup"] ∧
    ((["cup"] : List String).Perm ["cup"] ∧
      (∀ abbs, (["cup"] : List String) = ["cup"] →
        assign_label_idx ["cup"] abbs = assign_label_idx ["cup"] abbs)) :=
  ⟨⟨by decide, fun _ => Iff.rfl⟩,
    labels_same_set_for_any_enum (collectLabels stW.anno_bboxes) ["cup"] ["cup"]
      ⟨by decide, fun _ => Iff.rfl⟩ ⟨by decide, fun _ => Iff.rfl⟩⟩

/-! ## Theorems about the item materializer -/

/-- C10: for every valid record index, the target built by `__getitem__`
has `boxes`, `labels`, `area` and `iscrowd` all of length equal to the
number of boxes in that record's annotation, and every `iscrowd` entry is
zero. -/
theorem getitem_parallel_lengths (anno_bboxes : List (List AnnotationBbox))
    (idx : Nat) (h : idx < anno_bboxes.length) :
    (dataset_getitem anno_bboxes idx).boxes.length
        = (anno_bboxes.get ⟨idx, h⟩).length ∧
    (dataset_getitem anno_bboxes idx).labels.length
        = (anno_bboxes.get ⟨idx, h⟩).length ∧
    (dataset_getitem anno_bboxes idx).area.length
        = (anno_bboxes.get ⟨idx, h⟩).length ∧
    (dataset_getitem anno_bboxes idx).iscrowd.length
        = (anno_bboxes.get ⟨idx, h⟩).length ∧
    ∀ x ∈ (dataset_getitem anno_bboxes idx).iscrowd, x = 0 := by
  have hg : anno_bboxes.getD idx [] = anno_bboxes.get ⟨idx, h⟩ := by
    simp [List.getD_eq_getElem?_getD, List.getElem?_eq_getElem h,
      List.get_eq_getElem]
  refine ⟨?_, ?_, ?_, ?_, ?_⟩ <;>
    simp only [dataset_getitem, hg, List.length_map, List.length_replicate]
  intro x hx
  exact List.eq_of_mem_replicate hx

/-- C10 witness: the parallel-length property instantiated on a
one-record, one-box dataset at index 0. -/
theorem getitem_parallel_lengths_example :
    0 < ([[cupBoxA]] : List (List AnnotationBbox)).length ∧
    ((dataset_getitem [[cupBoxA]] 0).boxes.length
        = (([[cupBoxA]] : List (List AnnotationBbox)).get
            ⟨0, by decide⟩).length ∧
     (dataset_getitem [[cupBoxA]] 0).labels.length
        = (([[cupBoxA]] : List (List AnnotationBbox)).get
            ⟨0, by decide⟩).length ∧
     (dataset_getitem [[cupBoxA]] 0).area.length
        = (([[cupBoxA]] : List (List AnnotationBbox)).get
            ⟨0, by decide⟩).length ∧
     (dataset_getitem [[cupBoxA]] 0).iscrowd.length
        = (([[cupBoxA]] : List (List AnnotationBbox)).get
            ⟨0, by decide⟩).length ∧
     ∀ x ∈ (dataset_getitem [[cupBoxA]] 0).iscrowd, x = 0) :=
  ⟨by decide, getitem_parallel_lengths [[cupBoxA]] 0 (by decide)⟩

end CV
